import Mathlib

/-!
Shallow embedding of the kodefx-server real-time chat subsystem
(`ChatHandler` in the `service` package, together with the notification
sender), with theorems checking the design specification against it.

Go strings are byte sequences and `len`/slicing are byte-based, so message
content is embedded as a list where each `Char` stands for one byte.
Database access (`gorm`) is embedded as pure state passing over a `Store`
record; calls that return effects (hub broadcasts, notification dispatch)
are embedded as an explicit effect list.
-/

namespace Kodefx

/-- A chat client row (`models.Client`): primary key `id`, owning user `userId`.
The `models` package itself is not part of the snapshot; the fields are the
ones the handler code reads (`sender.ID`, `member.UserID`). -/
structure Client where
  id : Nat
  userId : Nat
deriving DecidableEq, Repr

/-- A channel row (`models.Channel`): primary key and display name, the two
fields read by the handler (`channel.ID`, `channel.Name`). -/
structure Channel where
  id : Nat
  name : String
deriving DecidableEq, Repr

/-- A device registration row (`models.Device`): the owning user and the Expo
push token, the fields used by the notification sender. -/
structure Device where
  userId : Nat
  token : String
deriving DecidableEq, Repr

/-- Message content as the sequence of bytes of the Go string; one `Char` per
byte, so `List.length` agrees with Go `len` and `List.take` with Go slicing. -/
abbrev Content := List Char

/-- A notification history row (`models.NotificationHistory`), written once per
dispatch attempt. -/
structure NotificationHistory where
  userId : Nat
  title : String
  body : Content
  status : String
  sentAt : Nat
deriving DecidableEq, Repr

/-- A peer message row (`models.PeerMessage`): the fields the handler writes
and persists. -/
structure PeerMessage where
  id : Nat
  senderId : Nat
  receiverId : Nat
  content : Content
  createdAt : Nat
deriving DecidableEq, Repr

/-- A channel message row (`models.ChannelMessage`). -/
structure ChannelMessage where
  id : Nat
  senderId : Nat
  channelId : Nat
  content : Content
  createdAt : Nat
deriving DecidableEq, Repr

/-- Modelled from the spec: the wire value of `models.PeerMessageType`. The
`models` package is missing from the snapshot; the spec gives the envelope
shape `{type: "peer"|"channel", ...}`. -/
def PeerMessageType : String := "peer"

/-- Modelled from the spec: the wire value of `models.ChannelMessageType`. -/
def ChannelMessageType : String := "channel"

/-- The inbound/outbound envelope (`models.WebSocketMessage`): a type tag and
two optional payloads. -/
structure WebSocketMessage where
  type : String
  peerMsg : Option PeerMessage := none
  channelMsg : Option ChannelMessage := none
deriving DecidableEq, Repr

/-- The persisted store: the tables the chat handler touches. Association
tables (`channel_clients`, `channel_admins`) are lists of
(channel id, client id) rows. -/
structure Store where
  clients : List Client
  channels : List Channel
  channelClients : List (Nat × Nat)
  channelAdmins : List (Nat × Nat)
  peerMessages : List PeerMessage
  channelMessages : List ChannelMessage
  devices : List Device
  history : List NotificationHistory
deriving DecidableEq, Repr

/-- The admin-count query in `ChatHandler.validateMessage`:
`channels JOIN channel_admins ON channels.id = channel_admins.channel_id
JOIN clients ON channel_admins.client_id = clients.id
WHERE channels.id = ? AND clients.user_id = ?`, counted. -/
def adminCount (st : Store) (channelId userId : Nat) : Nat :=
  (st.channelAdmins.filter fun row =>
    decide (row.1 = channelId) &&
    st.channels.any (fun ch => decide (ch.id = channelId)) &&
    st.clients.any (fun c => decide (c.id = row.2 ∧ c.userId = userId))).length

/-- Embedding of `ChatHandler.validateMessage`: structural checks per envelope variant plus
the live channel-admin authorization check for channel messages. -/
def validateMessage (st : Store) (msg : WebSocketMessage) (senderID : Nat) :
    Except String Unit :=
  if msg.type = PeerMessageType then
    match msg.peerMsg with
    | none => .error "peer message is nil"
    | some pm =>
      if pm.receiverId = 0 then .error "invalid receiver ID"
      else if pm.content = [] then .error "message content cannot be empty"
      else .ok ()
  else if msg.type = ChannelMessageType then
    match msg.channelMsg with
    | none => .error "channel message is nil"
    | some cm =>
      if cm.channelId = 0 then .error "invalid channel ID"
      else if cm.content = [] then .error "message content cannot be empty"
      else if adminCount st cm.channelId senderID = 0 then
        .error "only channel admins can send messages"
      else .ok ()
  else .error "invalid message type"

/-- The error frame built in `handleClientMessages` on validation failure:
only `Type` is set, to the string `"error: "` followed by the error text. -/
def errorFrame (e : String) : WebSocketMessage :=
  { type := "error: " ++ e, peerMsg := none, channelMsg := none }

/-- Channel member list via the `Clients` association (`channel_clients` join
rows resolved to client rows). -/
def channelMembers (st : Store) (channelId : Nat) : List Client :=
  st.channelClients.filterMap fun row =>
    if row.1 = channelId then st.clients.find? (fun c => decide (c.id = row.2))
    else none

/-- The truncation applied to peer-message content before it becomes the
notification body (`len > 100` cut to first 97 bytes plus `"..."`). -/
def peerPreview (content : Content) : Content :=
  if content.length > 100 then content.take 97 ++ ['.', '.', '.'] else content

/-- The truncation applied to channel-message content inside the notification
body (`len > 80` cut to first 77 bytes plus `"..."`). -/
def channelPreview (content : Content) : Content :=
  if content.length > 80 then content.take 77 ++ ['.', '.', '.'] else content

/-- Observable calls the read loop makes: error frames pushed to the client
queue, hub broadcasts, and fire-and-forget notification dispatches, plus the
deferred unregister/close pair. -/
inductive Effect where
  | sendToClient (frame : WebSocketMessage)
  | broadcastToUser (userId : Nat) (frame : WebSocketMessage)
  | broadcastToChannel (channelId : Nat) (frame : WebSocketMessage)
  | notify (userId : Nat) (title : String) (body : Content)
  | unregisterConn
  | closeConn
deriving DecidableEq, Repr

/-- Per-frame environment: the server clock at receipt (`time.Now()`), and
whether the `db.Create` call for this frame fails. -/
structure FrameEnv where
  now : Nat
  createFails : Bool
deriving DecidableEq, Repr

/-- The body of the read loop of `ChatHandler.handleClientMessages` for one
decoded frame: validate, on failure push an error frame back; on success stamp
sender and timestamp, persist, dispatch notifications and broadcast. Row ids
are assigned by the store at insertion. -/
def processFrame (st : Store) (env : FrameEnv) (userId : Nat)
    (msg : WebSocketMessage) : Store × List Effect :=
  match validateMessage st msg userId with
  | .error e => (st, [.sendToClient (errorFrame e)])
  | .ok () =>
    if msg.type = PeerMessageType then
      match msg.peerMsg with
      | none => (st, [])
      | some pm0 =>
        let pm := { pm0 with senderId := userId, createdAt := env.now }
        if env.createFails then (st, [])
        else
          let pm := { pm with id := st.peerMessages.length + 1 }
          let st1 := { st with peerMessages := st.peerMessages ++ [pm] }
          let senderName := "User " ++ toString userId
          let title := "New message from " ++ senderName
          let outMsg := { msg with peerMsg := some pm }
          (st1, [.notify pm.receiverId title (peerPreview pm.content),
                 .broadcastToUser pm.receiverId outMsg])
    else if msg.type = ChannelMessageType then
      match msg.channelMsg with
      | none => (st, [])
      | some cm0 =>
        let cm := { cm0 with senderId := userId, createdAt := env.now }
        if env.createFails then (st, [])
        else
          let cm := { cm with id := st.channelMessages.length + 1 }
          let st1 := { st with channelMessages := st.channelMessages ++ [cm] }
          match st1.channels.find? (fun ch => decide (ch.id = cm.channelId)) with
          | none => (st1, [])
          | some channel =>
            let members := channelMembers st1 cm.channelId
            let senderName := "User " ++ toString userId
            let title := "New message in " ++ channel.name
            let notifies :=
              (members.filter fun m => !decide (m.userId = userId)).map fun m =>
                Effect.notify m.userId title
                  (senderName.data ++ (": ").data ++ channelPreview cm.content)
            let outMsg := { msg with channelMsg := some cm }
            (st1, notifies ++ [.broadcastToChannel cm.channelId outMsg])
    else (st, [])

/-- One inbound event on the connection: a transport-level read error, a frame
whose JSON decode fails, or a decoded envelope. -/
inductive InboundFrame where
  | readErr
  | badJson
  | frame (env : FrameEnv) (msg : WebSocketMessage)
deriving DecidableEq, Repr

/-- Result of running the read loop on a finite prefix of inbound events:
the store, the effects issued in order, and whether the loop exited (ran its
deferred unregister and close). -/
structure LoopResult where
  st : Store
  effects : List Effect
  terminated : Bool
deriving DecidableEq, Repr

/-- The read loop of `ChatHandler.handleClientMessages`: a read error breaks
the loop, whose deferred block unregisters the client from the hub and closes
the transport; a JSON decode failure only logs and continues; a decoded frame
is processed by the loop body. An exhausted event list means the loop is still
blocked reading (`terminated = false`). -/
def handleClientMessages (st : Store) (userId : Nat) :
    List InboundFrame → LoopResult
  | [] => ⟨st, [], false⟩
  | .readErr :: _ => ⟨st, [.unregisterConn, .closeConn], true⟩
  | .badJson :: rest => handleClientMessages st userId rest
  | .frame env msg :: rest =>
    let r0 := processFrame st env userId msg
    let r := handleClientMessages r0.1 userId rest
    ⟨r.st, r0.2 ++ r.effects, r.terminated⟩

/-- Environment of one Expo dispatch: which token strings
`expo.NewExponentPushToken` accepts (format validity), whether
`expoClient.Publish` errors, and the tokens the provider's response reports as
invalid destinations (making `response.ValidateResponse()` fail). -/
structure ExpoEnv where
  formatValid : String → Bool
  publishFails : Bool
  providerInvalid : List String

/-- Embedding of `DefaultNotificationSender.cleanupInvalidTokens`: delete every device row
whose token is in the given list. -/
def cleanupInvalidTokens (st : Store) (tokens : List String) : Store :=
  { st with devices := st.devices.filter fun d => !tokens.contains d.token }

/-- Outcome of `sendExpoNotificationSDK`: resulting store, the Go
(success, error) pair, and the token lists actually handed to `Publish`. -/
structure SdkOutcome where
  st : Store
  success : Bool
  err : Option String
  publishes : List (List String)
deriving DecidableEq, Repr

/-- Embedding of `DefaultNotificationSender.sendExpoNotificationSDK`: split tokens by local
format validity; with no valid token fail without publishing (and without any
cleanup); publish to the valid ones; on publish error fail (no cleanup); on a
provider validation error clean up the locally invalid tokens and fail;
otherwise clean up the locally invalid tokens (if any) and succeed. -/
def sendExpoNotificationSDK (st : Store) (env : ExpoEnv)
    (tokenStrings : List String) : SdkOutcome :=
  let invalidTokens := tokenStrings.filter fun t => !env.formatValid t
  let pushTokens := tokenStrings.filter env.formatValid
  if pushTokens.isEmpty then
    ⟨st, false, some "no valid push tokens found", []⟩
  else if env.publishFails then
    ⟨st, false, some "failed to publish notification", [pushTokens]⟩
  else if !env.providerInvalid.isEmpty then
    ⟨cleanupInvalidTokens st invalidTokens, false,
     some "notification validation failed", [pushTokens]⟩
  else if !invalidTokens.isEmpty then
    ⟨cleanupInvalidTokens st invalidTokens, true, none, [pushTokens]⟩
  else
    ⟨st, true, none, [pushTokens]⟩

/-- Embedding of `DefaultNotificationSender.SendUserNotification`: load the user's devices;
with none, return success without publishing or recording history; otherwise
send to all device tokens and append one history row whose status is "sent"
only when the send both succeeded and returned no error. -/
def SendUserNotification (st : Store) (env : ExpoEnv) (userId : Nat)
    (title : String) (body : Content) (sentAt : Nat) : SdkOutcome :=
  let devices := st.devices.filter fun d => decide (d.userId = userId)
  if devices.isEmpty then
    ⟨st, true, none, []⟩
  else
    let tokens := devices.map (·.token)
    let o := sendExpoNotificationSDK st env tokens
    let status := if !o.success || o.err.isSome then "failed" else "sent"
    let row : NotificationHistory := ⟨userId, title, body, status, sentAt⟩
    ⟨{ o.st with history := o.st.history ++ [row] }, o.success, o.err,
     o.publishes⟩

/-- Outcome of `ChatHandler.AddChannelAdmin` as seen by the caller. -/
inductive AdminAddResult where
  | channelNotFound
  | alreadyAdmin
  | ok (admins : List Client)
deriving DecidableEq, Repr

/-- Channel admin list via the `Admins` association (`channel_admins` join
rows resolved to client rows). -/
def channelAdminsOf (st : Store) (channelId : Nat) : List Client :=
  st.channelAdmins.filterMap fun row =>
    if row.1 = channelId then st.clients.find? (fun c => decide (c.id = row.2))
    else none

/-- Embedding of `ChatHandler.AddChannelAdmin` inside its transaction: look up the channel,
get-or-create the client row for the requested user, reject with
"User is already an admin" (rolling the transaction back) when the
(channel, client) pair is already in `channel_admins`, otherwise insert the
pair, commit, and return the updated admin list. -/
def AddChannelAdmin (st : Store) (channelId : Nat) (reqUserId : Nat) :
    Store × AdminAddResult :=
  match st.channels.find? (fun ch => decide (ch.id = channelId)) with
  | none => (st, .channelNotFound)
  | some channel =>
    let step :=
      match st.clients.find? (fun c => decide (c.userId = reqUserId)) with
      | some c => (st, c)
      | none =>
        let c : Client := ⟨st.clients.length + 1, reqUserId⟩
        ({ st with clients := st.clients ++ [c] }, c)
    let stTx := step.1
    let client := step.2
    if (channel.id, client.id) ∈ stTx.channelAdmins then
      (st, .alreadyAdmin)
    else
      let st1 :=
        { stTx with channelAdmins := stTx.channelAdmins ++ [(channel.id, client.id)] }
      (st1, .ok (channelAdminsOf st1 channel.id))

/-! ## Helper lemmas -/

/-- On any validation error the loop body only pushes the error frame back and
leaves the store untouched. -/
theorem processFrame_of_error (st : Store) (env : FrameEnv) (uid : Nat)
    (msg : WebSocketMessage) (e : String)
    (h : validateMessage st msg uid = .error e) :
    processFrame st env uid msg = (st, [.sendToClient (errorFrame e)]) := by
  unfold processFrame
  rw [h]

/-- A channel envelope whose sender fails the admin-count check is rejected by
`validateMessage`, whatever the specific error text. -/
theorem validateMessage_channel_error (st : Store) (msg : WebSocketMessage)
    (uid : Nat) (cm : ChannelMessage)
    (hty : msg.type = ChannelMessageType) (hcm : msg.channelMsg = some cm)
    (hadmin : adminCount st cm.channelId uid = 0) :
    ∃ e, validateMessage st msg uid = .error e := by
  by_cases h1 : cm.channelId = 0
  · exact ⟨"invalid channel ID",
      by simp [validateMessage, PeerMessageType, ChannelMessageType, hty, hcm, h1]⟩
  · by_cases h2 : cm.content = []
    · exact ⟨"message content cannot be empty",
        by simp [validateMessage, PeerMessageType, ChannelMessageType, hty, hcm, h1, h2]⟩
    · exact ⟨"only channel admins can send messages",
        by simp [validateMessage, PeerMessageType, ChannelMessageType, hty, hcm, h1, h2,
                 hadmin]⟩

/-- Unfolding the read loop one decoded frame at a time. -/
theorem handleClientMessages_cons_frame (st : Store) (uid : Nat) (env : FrameEnv)
    (msg : WebSocketMessage) (rest : List InboundFrame) :
    handleClientMessages st uid (.frame env msg :: rest) =
      ⟨(handleClientMessages (processFrame st env uid msg).1 uid rest).st,
       (processFrame st env uid msg).2 ++
         (handleClientMessages (processFrame st env uid msg).1 uid rest).effects,
       (handleClientMessages (processFrame st env uid msg).1 uid rest).terminated⟩ :=
  rfl

/-! ## Claim theorems -/

/-- C1: an inbound channel-type message whose authenticated sender is not in
the channel's persisted admin set fails validation; the store is unchanged (no
new message row) and no `BroadcastToChannel` effect is issued for it. -/
theorem channel_message_from_non_admin_rejected (st : Store) (env : FrameEnv)
    (uid : Nat) (msg : WebSocketMessage) (cm : ChannelMessage)
    (hty : msg.type = ChannelMessageType) (hcm : msg.channelMsg = some cm)
    (hadmin : adminCount st cm.channelId uid = 0) :
    (∃ e, validateMessage st msg uid = .error e) ∧
    (processFrame st env uid msg).1 = st ∧
    ∀ cid frame,
      Effect.broadcastToChannel cid frame ∉ (processFrame st env uid msg).2 := by
  obtain ⟨e, he⟩ := validateMessage_channel_error st msg uid cm hty hcm hadmin
  refine ⟨⟨e, he⟩, ?_, ?_⟩
  · rw [processFrame_of_error st env uid msg e he]
  · intro cid frame
    rw [processFrame_of_error st env uid msg e he]
    simp

/-- Concrete fixture: channel 1 "general" whose members are clients 1, 2, 3
(users 10, 20, 30); only client 1 (user 10) is an admin. -/
def stGeneral : Store :=
  { clients := [⟨1, 10⟩, ⟨2, 20⟩, ⟨3, 30⟩]
    channels := [⟨1, "general"⟩]
    channelClients := [(1, 1), (1, 2), (1, 3)]
    channelAdmins := [(1, 1)]
    peerMessages := []
    channelMessages := []
    devices := []
    history := [] }

/-- Concrete channel envelope sent by non-admin user 20 into channel 1. -/
def nonAdminChannelMsg : WebSocketMessage :=
  { type := ChannelMessageType, channelMsg := some ⟨0, 20, 1, ['h', 'i'], 0⟩ }

/-- C1 witness: user 20 is not an admin of channel 1 in `stGeneral`, and the
frame leaves the store unchanged and issues no channel broadcast. -/
theorem channel_message_from_non_admin_rejected_witness :
    (processFrame stGeneral ⟨5, false⟩ 20 nonAdminChannelMsg).1 = stGeneral ∧
    Effect.broadcastToChannel 1
        (errorFrame "only channel admins can send messages") ∉
      (processFrame stGeneral ⟨5, false⟩ 20 nonAdminChannelMsg).2 := by
  have h := channel_message_from_non_admin_rejected stGeneral ⟨5, false⟩ 20
    nonAdminChannelMsg ⟨0, 20, 1, ['h', 'i'], 0⟩ rfl rfl (by decide)
  exact ⟨h.2.1, h.2.2 1 (errorFrame "only channel admins can send messages")⟩

/-- C2: a peer-type message with empty content fails validation; an error
frame is pushed back to the originating connection, the store is unchanged,
no `BroadcastToUser` effect is issued, and the read loop continues with the
remaining frames. -/
theorem empty_peer_content_rejected (st : Store) (env : FrameEnv) (uid : Nat)
    (msg : WebSocketMessage) (pm : PeerMessage) (rest : List InboundFrame)
    (hty : msg.type = PeerMessageType) (hpm : msg.peerMsg = some pm)
    (hc : pm.content = []) :
    ∃ e, validateMessage st msg uid = .error e ∧
      processFrame st env uid msg = (st, [.sendToClient (errorFrame e)]) ∧
      (∀ u frame,
        Effect.broadcastToUser u frame ∉ (processFrame st env uid msg).2) ∧
      handleClientMessages st uid (.frame env msg :: rest) =
        ⟨(handleClientMessages st uid rest).st,
         .sendToClient (errorFrame e) :: (handleClientMessages st uid rest).effects,
         (handleClientMessages st uid rest).terminated⟩ := by
  have hv : ∃ e, validateMessage st msg uid = .error e := by
    by_cases h1 : pm.receiverId = 0
    · exact ⟨"invalid receiver ID",
        by simp [validateMessage, PeerMessageType, hty, hpm, h1]⟩
    · exact ⟨"message content cannot be empty",
        by simp [validateMessage, PeerMessageType, hty, hpm, h1, hc]⟩
  obtain ⟨e, he⟩ := hv
  have hpf := processFrame_of_error st env uid msg e he
  refine ⟨e, he, hpf, ?_, ?_⟩
  · intro u frame
    rw [hpf]
    simp
  · rw [handleClientMessages_cons_frame, hpf]
    simp

/-- Concrete peer envelope from user 10 with empty content. -/
def emptyPeerMsg : WebSocketMessage :=
  { type := PeerMessageType, peerMsg := some ⟨0, 10, 20, [], 0⟩ }

/-- C2 witness: in `stGeneral`, the empty-content peer frame yields exactly an
error frame, and the loop goes on to terminate only at the following read
error. -/
theorem empty_peer_content_rejected_witness :
    processFrame stGeneral ⟨5, false⟩ 10 emptyPeerMsg =
      (stGeneral, [.sendToClient (errorFrame "message content cannot be empty")]) ∧
    handleClientMessages stGeneral 10 [.frame ⟨5, false⟩ emptyPeerMsg, .readErr] =
      ⟨stGeneral,
       [.sendToClient (errorFrame "message content cannot be empty"),
        .unregisterConn, .closeConn], true⟩ := by
  obtain ⟨e, he, hpf, _, hloop⟩ := empty_peer_content_rejected stGeneral ⟨5, false⟩
    10 emptyPeerMsg ⟨0, 10, 20, [], 0⟩ [.readErr] rfl rfl rfl
  have hknown : validateMessage stGeneral emptyPeerMsg 10 =
      .error "message content cannot be empty" := rfl
  have hmm := hknown.symm.trans he
  have hee : e = "message content cannot be empty" := by
    injection hmm with h
    exact h.symm
  subst hee
  exact ⟨hpf, by rw [hloop]; rfl⟩

/-- C10: the frame pushed back on validation failure carries the error in its
`Type` field ("error: " followed by the error text) and has neither payload;
in particular its type is neither of the documented "peer"/"channel" values. -/
theorem validation_error_frame_shape (st : Store) (env : FrameEnv) (uid : Nat)
    (msg : WebSocketMessage) (e : String)
    (h : validateMessage st msg uid = .error e) :
    (processFrame st env uid msg).2 = [.sendToClient (errorFrame e)] ∧
    (errorFrame e).type = "error: " ++ e ∧
    (errorFrame e).peerMsg = none ∧
    (errorFrame e).channelMsg = none ∧
    (errorFrame e).type ≠ PeerMessageType ∧
    (errorFrame e).type ≠ ChannelMessageType := by
  refine ⟨?_, rfl, rfl, rfl, ?_, ?_⟩
  · rw [processFrame_of_error st env uid msg e h]
  · show ("error: " ++ e) ≠ PeerMessageType
    intro hEq
    have hd := congrArg String.data hEq
    rw [String.data_append] at hd
    have he1 : ("error: ").data = ['e', 'r', 'r', 'o', 'r', ':', ' '] := rfl
    have he2 : (PeerMessageType).data = ['p', 'e', 'e', 'r'] := rfl
    rw [he1, he2] at hd
    simp at hd
  · show ("error: " ++ e) ≠ ChannelMessageType
    intro hEq
    have hd := congrArg String.data hEq
    rw [String.data_append] at hd
    have he1 : ("error: ").data = ['e', 'r', 'r', 'o', 'r', ':', ' '] := rfl
    have he2 : (ChannelMessageType).data = ['c', 'h', 'a', 'n', 'n', 'e', 'l'] := rfl
    rw [he1, he2] at hd
    simp at hd

/-- Concrete envelope with an unrecognized type tag. -/
def bogusMsg : WebSocketMessage := { type := "bogus" }

/-- C10 witness: the unrecognized-type frame produces exactly one error frame
whose type is not a message-type value. -/
theorem validation_error_frame_shape_witness :
    (processFrame stGeneral ⟨1, false⟩ 10 bogusMsg).2 =
      [.sendToClient (errorFrame "invalid message type")] ∧
    (errorFrame "invalid message type").type ≠ PeerMessageType ∧
    (errorFrame "invalid message type").type ≠ ChannelMessageType := by
  have h := validation_error_frame_shape stGeneral ⟨1, false⟩ 10 bogusMsg
    "invalid message type" rfl
  exact ⟨h.1, h.2.2.2.2.1, h.2.2.2.2.2⟩

/-- Deleting one decode-failure event from the inbound stream does not change
the loop's behaviour at all. -/
theorem loop_badJson_skip (uid : Nat) (pre post : List InboundFrame) :
    ∀ st : Store, handleClientMessages st uid (pre ++ .badJson :: post) =
      handleClientMessages st uid (pre ++ post) := by
  induction pre with
  | nil => intro st; rfl
  | cons f pre ih =>
    intro st
    cases f with
    | readErr => rfl
    | badJson => exact ih st
    | frame env msg =>
      simp only [List.cons_append, handleClientMessages_cons_frame]
      rw [ih]

/-- Events after a transport read error are never processed. -/
theorem loop_readErr_absorb (uid : Nat) (pre post : List InboundFrame) :
    ∀ st : Store, handleClientMessages st uid (pre ++ .readErr :: post) =
      handleClientMessages st uid (pre ++ [.readErr]) := by
  induction pre with
  | nil => intro st; rfl
  | cons f pre ih =>
    intro st
    cases f with
    | readErr => rfl
    | badJson => exact ih st
    | frame env msg =>
      simp only [List.cons_append, handleClientMessages_cons_frame]
      rw [ih]

/-- A read error terminates the loop. -/
theorem loop_readErr_terminated (uid : Nat) (pre : List InboundFrame) :
    ∀ st : Store,
      (handleClientMessages st uid (pre ++ [.readErr])).terminated = true := by
  induction pre with
  | nil => intro st; rfl
  | cons f pre ih =>
    intro st
    cases f with
    | readErr => rfl
    | badJson => exact ih st
    | frame env msg =>
      simp only [List.cons_append, handleClientMessages_cons_frame]
      exact ih _

/-- On exit the deferred block unregisters the connection and closes the
transport, in that order, as the final two effects. -/
theorem loop_readErr_cleanup (uid : Nat) (pre : List InboundFrame) :
    ∀ st : Store, ∃ effs,
      (handleClientMessages st uid (pre ++ [.readErr])).effects =
        effs ++ [.unregisterConn, .closeConn] := by
  induction pre with
  | nil => intro st; exact ⟨[], rfl⟩
  | cons f pre ih =>
    intro st
    cases f with
    | readErr => exact ⟨[], rfl⟩
    | badJson => exact ih st
    | frame env msg =>
      obtain ⟨effs, heff⟩ := ih (processFrame st env uid msg).1
      refine ⟨(processFrame st env uid msg).2 ++ effs, ?_⟩
      simp only [List.cons_append, handleClientMessages_cons_frame]
      rw [heff, List.append_assoc]

/-- C3: in the read loop a JSON decode failure is non-terminal (the event can
be deleted from the stream without changing anything, so no unregister
happens for it), while a transport read error is terminal: everything after it
is ignored, the loop exits, and the connection is unregistered from the hub
and the transport closed. -/
theorem decode_failure_nonterminal_read_error_terminal (st : Store) (uid : Nat)
    (pre post : List InboundFrame) :
    (handleClientMessages st uid (pre ++ .badJson :: post) =
       handleClientMessages st uid (pre ++ post)) ∧
    (handleClientMessages st uid (pre ++ .readErr :: post) =
       handleClientMessages st uid (pre ++ [.readErr])) ∧
    (handleClientMessages st uid (pre ++ [.readErr])).terminated = true ∧
    ∃ effs, (handleClientMessages st uid (pre ++ [.readErr])).effects =
      effs ++ [.unregisterConn, .closeConn] :=
  ⟨loop_badJson_skip uid pre post st, loop_readErr_absorb uid pre post st,
   loop_readErr_terminated uid pre st, loop_readErr_cleanup uid pre st⟩

/-- Expo environment in which every token is format-valid and the provider
accepts everything. -/
def envAllValid : ExpoEnv := ⟨fun _ => true, false, []⟩

/-- C9: a recipient with no registered devices yields success (true, no error)
with no publish and no history row (the store is returned unchanged). -/
theorem send_user_notification_no_devices (st : Store) (env : ExpoEnv)
    (uid : Nat) (title : String) (body : Content) (sentAt : Nat)
    (h : st.devices.filter (fun d => decide (d.userId = uid)) = []) :
    SendUserNotification st env uid title body sentAt = ⟨st, true, none, []⟩ := by
  simp [SendUserNotification, h]

/-- C9 witness: `stGeneral` has no devices at all. -/
theorem send_user_notification_no_devices_witness :
    SendUserNotification stGeneral envAllValid 10 "t" ['x'] 0 =
      ⟨stGeneral, true, none, []⟩ :=
  send_user_notification_no_devices stGeneral envAllValid 10 "t" ['x'] 0 rfl

/-- A peer envelope that passed validation has a payload. -/
theorem validate_ok_peer_some (st : Store) (msg : WebSocketMessage) (uid : Nat)
    (hok : validateMessage st msg uid = .ok ())
    (hty : msg.type = PeerMessageType) :
    ∃ pm, msg.peerMsg = some pm := by
  cases hpm : msg.peerMsg with
  | none => simp [validateMessage, hty, hpm] at hok
  | some pm => exact ⟨pm, rfl⟩

/-- A channel envelope that passed validation has a payload. -/
theorem validate_ok_channel_some (st : Store) (msg : WebSocketMessage)
    (uid : Nat) (hok : validateMessage st msg uid = .ok ())
    (hty : msg.type = ChannelMessageType) :
    ∃ cm, msg.channelMsg = some cm := by
  cases hcm : msg.channelMsg with
  | none =>
    simp [validateMessage, PeerMessageType, ChannelMessageType, hty, hcm] at hok
  | some cm => exact ⟨cm, rfl⟩

/-- An envelope that passed validation is of one of the two known types. -/
theorem validate_ok_type (st : Store) (msg : WebSocketMessage) (uid : Nat)
    (hok : validateMessage st msg uid = .ok ()) :
    msg.type = PeerMessageType ∨ msg.type = ChannelMessageType := by
  by_cases h1 : msg.type = PeerMessageType
  · exact Or.inl h1
  · by_cases h2 : msg.type = ChannelMessageType
    · exact Or.inr h2
    · simp [validateMessage, h1, h2] at hok

/-- C4: for a valid inbound message the persisted row's sender identity is the
connection's authenticated user and its creation time the server clock at
receipt — whatever sender/time the client put in the envelope — and on
persistence failure nothing is broadcast (the loop body is a no-op). -/
theorem valid_message_server_stamped (st : Store) (env : FrameEnv) (uid : Nat)
    (msg : WebSocketMessage)
    (hok : validateMessage st msg uid = .ok ()) :
    (env.createFails = true → processFrame st env uid msg = (st, [])) ∧
    (∀ pm, msg.type = PeerMessageType → msg.peerMsg = some pm →
      env.createFails = false →
      (processFrame st env uid msg).1.peerMessages =
        st.peerMessages ++
          [{ id := st.peerMessages.length + 1, senderId := uid,
             receiverId := pm.receiverId, content := pm.content,
             createdAt := env.now }]) ∧
    (∀ cm, msg.type = ChannelMessageType → msg.channelMsg = some cm →
      env.createFails = false →
      (processFrame st env uid msg).1.channelMessages =
        st.channelMessages ++
          [{ id := st.channelMessages.length + 1, senderId := uid,
             channelId := cm.channelId, content := cm.content,
             createdAt := env.now }]) := by
  refine ⟨?_, ?_, ?_⟩
  · intro hcf
    rcases validate_ok_type st msg uid hok with hty | hty
    · obtain ⟨pm, hpm⟩ := validate_ok_peer_some st msg uid hok hty
      unfold processFrame
      rw [hok]
      simp [hty, hpm, hcf]
    · obtain ⟨cm, hcm⟩ := validate_ok_channel_some st msg uid hok hty
      unfold processFrame
      rw [hok]
      simp [PeerMessageType, ChannelMessageType, hty, hcm, hcf]
  · intro pm hty hpm hcf
    unfold processFrame
    rw [hok]
    simp [hty, hpm, hcf]
  · intro cm hty hcm hcf
    unfold processFrame
    rw [hok]
    simp [hty, hcm, hcf, PeerMessageType, ChannelMessageType]
    split <;> simp

/-- Concrete peer envelope whose client-filled sender (99) and creation time
(42) differ from the connection's user (10) and the server clock (7). -/
def forgedPeerMsg : WebSocketMessage :=
  { type := PeerMessageType, peerMsg := some ⟨0, 99, 20, ['h', 'i'], 42⟩ }

/-- C4 witness: the persisted row carries sender 10 and time 7, not the
client-supplied 99 and 42. -/
theorem valid_message_server_stamped_witness :
    (processFrame stGeneral ⟨7, false⟩ 10 forgedPeerMsg).1.peerMessages =
      [⟨1, 10, 20, ['h', 'i'], 7⟩] := by
  have h := valid_message_server_stamped stGeneral ⟨7, false⟩ 10 forgedPeerMsg rfl
  have h2 := h.2.1 ⟨0, 99, 20, ['h', 'i'], 42⟩ rfl rfl rfl
  simpa [stGeneral] using h2

/-- The user identities the loop body dispatches notifications to, in order. -/
def notifyTargets (effs : List Effect) : List Nat :=
  effs.filterMap fun e =>
    match e with
    | .notify u _ _ => some u
    | _ => none

/-- A channel envelope that passed validation has a sender passing the
admin-count check. -/
theorem validate_ok_channel_admin (st : Store) (msg : WebSocketMessage)
    (uid : Nat) (cm : ChannelMessage)
    (hty : msg.type = ChannelMessageType) (hcm : msg.channelMsg = some cm)
    (hok : validateMessage st msg uid = .ok ()) :
    adminCount st cm.channelId uid ≠ 0 := by
  intro h0
  obtain ⟨e, he⟩ := validateMessage_channel_error st msg uid cm hty hcm h0
  rw [he] at hok
  exact absurd hok (by simp)

/-- A nonzero admin count implies the channel row exists. -/
theorem adminCount_ne_zero_channel_mem (st : Store) (channelId uid : Nat)
    (h : adminCount st channelId uid ≠ 0) :
    ∃ ch, st.channels.find? (fun c => decide (c.id = channelId)) = some ch := by
  unfold adminCount at h
  rw [Ne, List.length_eq_zero] at h
  obtain ⟨row, hrow⟩ := List.exists_mem_of_ne_nil _ h
  have hp := List.of_mem_filter hrow
  simp only [Bool.and_eq_true, decide_eq_true_eq, List.any_eq_true] at hp
  obtain ⟨⟨-, ch, hchmem, hchid⟩, -⟩ := hp
  have : (st.channels.find? (fun c => decide (c.id = channelId))).isSome := by
    rw [List.find?_isSome]
    exact ⟨ch, hchmem, by simpa using hchid⟩
  exact Option.isSome_iff_exists.mp this

/-- The function `notifyTargets` distributes over append. -/
theorem notifyTargets_append (a b : List Effect) :
    notifyTargets (a ++ b) = notifyTargets a ++ notifyTargets b := by
  simp [notifyTargets, List.filterMap_append]

/-- A pure notification burst targets exactly the mapped users, in order. -/
theorem notifyTargets_map (l : List Client) (t : String) (b : Content) :
    notifyTargets (l.map fun m => Effect.notify m.userId t b) =
      l.map fun m => m.userId := by
  induction l with
  | nil => rfl
  | cons x l ih =>
    simp only [List.map_cons, notifyTargets, List.filterMap_cons] at ih ⊢
    rw [ih]

/-- A lone broadcast effect notifies nobody. -/
theorem notifyTargets_broadcast (c : Nat) (f : WebSocketMessage) :
    notifyTargets [.broadcastToChannel c f] = [] := rfl

/-- Persisting a message does not change who the channel members are. -/
theorem channelMembers_update (st : Store) (x : List ChannelMessage)
    (cid : Nat) :
    channelMembers { st with channelMessages := x } cid =
      channelMembers st cid := rfl

/-- C5: a successfully persisted channel message dispatches exactly one
notification per channel member whose user identity differs from the sender's,
in member order, and none to a member with the sender's identity. -/
theorem channel_notification_fanout (st : Store) (env : FrameEnv) (uid : Nat)
    (msg : WebSocketMessage) (cm : ChannelMessage)
    (hty : msg.type = ChannelMessageType) (hcm : msg.channelMsg = some cm)
    (hok : validateMessage st msg uid = .ok ())
    (hcf : env.createFails = false) :
    notifyTargets (processFrame st env uid msg).2 =
      ((channelMembers st cm.channelId).filter
          fun m => !decide (m.userId = uid)).map (fun m => m.userId) ∧
    uid ∉ notifyTargets (processFrame st env uid msg).2 := by
  have hadm := validate_ok_channel_admin st msg uid cm hty hcm hok
  obtain ⟨ch, hfind⟩ := adminCount_ne_zero_channel_mem st cm.channelId uid hadm
  have h1 : notifyTargets (processFrame st env uid msg).2 =
      ((channelMembers st cm.channelId).filter
          fun m => !decide (m.userId = uid)).map (fun m => m.userId) := by
    unfold processFrame
    rw [hok]
    simp [hty, hcm, hcf, PeerMessageType, ChannelMessageType, hfind,
          channelMembers_update, notifyTargets_append, notifyTargets_map,
          notifyTargets_broadcast]
  refine ⟨h1, ?_⟩
  rw [h1]
  intro hmem
  simp only [List.mem_map] at hmem
  obtain ⟨m, hm, hmu⟩ := hmem
  have hf := List.of_mem_filter hm
  simp only [Bool.not_eq_true', decide_eq_false_iff_not] at hf
  exact hf hmu

/-- Concrete channel envelope posted by admin user 10 into channel 1. -/
def adminChannelMsg : WebSocketMessage :=
  { type := ChannelMessageType, channelMsg := some ⟨0, 1, 1, ['y', 'o'], 0⟩ }

/-- C5 witness: in `stGeneral` (members with users 10, 20, 30; sender 10) the
dispatch targets are exactly users 20 and 30, and never sender 10. -/
theorem channel_notification_fanout_witness :
    notifyTargets (processFrame stGeneral ⟨7, false⟩ 10 adminChannelMsg).2 =
      [20, 30] ∧
    10 ∉ notifyTargets (processFrame stGeneral ⟨7, false⟩ 10 adminChannelMsg).2 := by
  have h := channel_notification_fanout stGeneral ⟨7, false⟩ 10 adminChannelMsg
    ⟨0, 1, 1, ['y', 'o'], 0⟩ rfl rfl rfl rfl
  exact ⟨h.1.trans (by decide), h.2⟩

/-- C6: the notification content preview is bounded — at most 100 bytes for
peer messages (over-long content cut to its first 97 bytes plus "...") and at
most 80 bytes for channel messages (cut to 77 bytes plus "..."); content at or
under the bound passes through unchanged. -/
theorem notification_preview_bounds (content : Content) :
    (peerPreview content).length ≤ 100 ∧
    (channelPreview content).length ≤ 80 ∧
    (content.length ≤ 100 → peerPreview content = content) ∧
    (content.length > 100 →
      peerPreview content = content.take 97 ++ ['.', '.', '.']) ∧
    (content.length ≤ 80 → channelPreview content = content) ∧
    (content.length > 80 →
      channelPreview content = content.take 77 ++ ['.', '.', '.']) := by
  unfold peerPreview channelPreview
  by_cases h1 : content.length > 100 <;> by_cases h2 : content.length > 80 <;>
    simp [h1, h2, List.length_take] <;> omega

/-- C6 witness: 150 bytes of peer content become 97 bytes plus "..."; 80 bytes
of channel content pass through unchanged. -/
theorem notification_preview_bounds_witness :
    peerPreview (List.replicate 150 'a') =
      List.replicate 97 'a' ++ ['.', '.', '.'] ∧
    channelPreview (List.replicate 80 'b') = List.replicate 80 'b' := by
  have h1 := (notification_preview_bounds (List.replicate 150 'a')).2.2.2.1
    (by simp)
  have h2 := (notification_preview_bounds (List.replicate 80 'b')).2.2.2.2.1
    (by simp)
  refine ⟨?_, h2⟩
  rw [h1, List.take_replicate, min_eq_left (by norm_num)]

/-- Store holding only one device: user 7 with a well-formed but stale push
token that the provider will report as invalid. -/
def stStaleDevice : Store :=
  { clients := [], channels := [], channelClients := [], channelAdmins := []
    peerMessages := [], channelMessages := []
    devices := [⟨7, "ExpoPushToken-stale"⟩], history := [] }

/-- Expo environment in which every token is format-valid but the provider
reports the stale token as an invalid destination. -/
def envProviderInvalid : ExpoEnv :=
  ⟨fun _ => true, false, ["ExpoPushToken-stale"]⟩

/-- C7 counterexample: the provider reports "ExpoPushToken-stale" invalid, the
dispatch fails with a validation error, and yet the device registration for
that token is still in the store afterwards — the claim as stated is false. -/
theorem provider_invalid_token_not_purged :
    "ExpoPushToken-stale" ∈ envProviderInvalid.providerInvalid ∧
    (SendUserNotification stStaleDevice envProviderInvalid 7 "t" ['x'] 0).success
      = false ∧
    (SendUserNotification stStaleDevice envProviderInvalid 7 "t" ['x'] 0).st.devices
      = [⟨7, "ExpoPushToken-stale"⟩] := by
  refine ⟨?_, rfl, rfl⟩
  simp [envProviderInvalid]

/-- C7 amended: when a publish succeeds past the all-invalid guard (at least
one token passed local format validation and the publish call does not error),
every token that failed local format validation has its device registrations
deleted; provider-reported invalid destinations are not themselves purged. -/
theorem format_invalid_token_purged (st : Store) (env : ExpoEnv)
    (tokens : List String) (t t0 : String)
    (hmem : t ∈ tokens) (hbad : env.formatValid t = false)
    (hmem0 : t0 ∈ tokens) (hgood : env.formatValid t0 = true)
    (hpub : env.publishFails = false) :
    ((sendExpoNotificationSDK st env tokens).st.devices.filter
        fun d => decide (d.token = t)) = [] := by
  have hinv : t ∈ tokens.filter fun s => !env.formatValid s :=
    List.mem_filter.mpr ⟨hmem, by simp [hbad]⟩
  have hpushne : (tokens.filter env.formatValid).isEmpty = false := by
    rw [List.isEmpty_eq_false]
    exact List.ne_nil_of_mem (List.mem_filter.mpr ⟨hmem0, hgood⟩)
  have hcleanup : ∀ d ∈ (cleanupInvalidTokens st
      (tokens.filter fun s => !env.formatValid s)).devices, ¬d.token = t := by
    intro d hd hdt
    have hpd := List.of_mem_filter hd
    simp only [List.contains, List.elem_eq_mem, Bool.not_eq_true',
      decide_eq_false_iff_not] at hpd
    exact hpd (hdt ▸ hinv)
  rw [List.filter_eq_nil_iff]
  intro d hd
  simp only [decide_eq_true_eq]
  simp [sendExpoNotificationSDK, hpushne, hpub] at hd
  split at hd
  next =>
    split at hd
    next => exact hcleanup d (by simpa using hd)
    next hcond => exact absurd ⟨t, hmem, hbad⟩ hcond
  next => exact hcleanup d (by simpa using hd)

/-- Store with one healthy and one malformed device token for user 7. -/
def stTwoDevices : Store :=
  { clients := [], channels := [], channelClients := [], channelAdmins := []
    peerMessages := [], channelMessages := []
    devices := [⟨7, "good"⟩, ⟨7, "bad"⟩], history := [] }

/-- Expo environment accepting exactly the token "good". -/
def envGoodOnly : ExpoEnv := ⟨fun s => decide (s = "good"), false, []⟩

/-- C7 amended witness: after a dispatch over ["good", "bad"], no device with
the format-invalid token "bad" remains. -/
theorem format_invalid_token_purged_witness :
    ((sendExpoNotificationSDK stTwoDevices envGoodOnly
        ["good", "bad"]).st.devices.filter
      fun d => decide (d.token = "bad")) = [] :=
  format_invalid_token_purged stTwoDevices envGoodOnly ["good", "bad"]
    "bad" "good" (by decide) rfl (by decide) rfl rfl

/-- C8: adding an admin for a (channel, user) pair that is already in the
admin set is rejected as "already an admin": the transaction rolls back and
the store — in particular the admin set's cardinality — is exactly as before
the call. -/
theorem add_channel_admin_already_admin (st : Store) (channelId reqUserId : Nat)
    (ch : Channel) (c : Client)
    (hch : st.channels.find? (fun x => decide (x.id = channelId)) = some ch)
    (hc : st.clients.find? (fun x => decide (x.userId = reqUserId)) = some c)
    (hadm : (ch.id, c.id) ∈ st.channelAdmins) :
    AddChannelAdmin st channelId reqUserId = (st, .alreadyAdmin) ∧
    (AddChannelAdmin st channelId reqUserId).1.channelAdmins.length =
      st.channelAdmins.length := by
  have h1 : AddChannelAdmin st channelId reqUserId = (st, .alreadyAdmin) := by
    unfold AddChannelAdmin
    rw [hch]
    simp [hc, hadm]
  exact ⟨h1, by rw [h1]⟩

/-- C8 witness: in `stGeneral`, user 10 (client 1) is already an admin of
channel 1, so a second add is rejected and the store is unchanged. -/
theorem add_channel_admin_already_admin_witness :
    AddChannelAdmin stGeneral 1 10 = (stGeneral, .alreadyAdmin) ∧
    (AddChannelAdmin stGeneral 1 10).1.channelAdmins.length =
      stGeneral.channelAdmins.length :=
  add_channel_admin_already_admin stGeneral 1 10 ⟨1, "general"⟩ ⟨1, 10⟩
    rfl rfl (by decide)

end Kodefx
